import Mathlib

/-!
Verification of the Research_hunter scoring pipeline.

This file is a shallow embedding, in Lean 4, of the scoring logic of the
repository (files `research_hunter/offline_analyzer.py`,
`research_hunter/scoring.py` and the sorting glue of
`research_hunter/cli.py`), together with theorems settling the frozen
claims about it.

Modelling conventions:
* Python `str` values are modelled as `List Char` (code points); text
  helpers work over `List Char` and are wrapped in `String` at the edges.
  The ASCII fragment of `str.lower`/`str.strip` is modelled; all inputs
  appearing in concrete evaluations are ASCII.
* Python integers are `Int` (they are arbitrary precision in Python).
* Python float expressions (`max_points * 0.85`,
  `round(max_points * (1 - age / 10))`) are modelled by exact rational /
  integer arithmetic with the decimal value of the literals, together
  with Python's `int()` truncation (`Int.tdiv`) and Python's
  banker's rounding (`round` ties-to-even).  For the configured maxima
  actually used by the program (20 for impact and recency, checked for
  60 and 100 as well) the float computation is exact, so the model
  agrees with CPython there; theorems about the exact numeric values of
  these two scorers are stated at the configured maximum.
* JSON values appearing in loosely-typed record fields are modelled by
  the inductive `JVal`.
* Dynamic failures (the `ValueError` of `load_papers`, the `TypeError`
  raised by comparing an `int` with a `str` while sorting) are modelled
  by `Except`/`Option` results.
-/

namespace ResearchHunter

/-! ## Python string primitives -/

/-- Python whitespace (the ASCII part of the regex class `\s` and of
`str.strip`): space, tab, newline, carriage return, vertical tab, form feed. -/
def pyIsSpace (c : Char) : Bool :=
  c = ' ' || c = '\t' || c = '\n' || c = '\r' || c = Char.ofNat 11 || c = Char.ofNat 12

/-- ASCII `str.lower`. -/
def pyLower (c : Char) : Char := c.toLower

/-- Python `str.strip()`: drop leading and trailing whitespace. -/
def pyStrip (l : List Char) : List Char :=
  ((l.dropWhile pyIsSpace).reverse.dropWhile pyIsSpace).reverse

/-- Worker for whitespace collapsing: `prevSpace` records whether the
previous character belonged to a whitespace run already emitted as a
single space. -/
def collapseWsGo : Bool → List Char → List Char
  | _, [] => []
  | prevSpace, c :: rest =>
    if pyIsSpace c then
      if prevSpace then collapseWsGo true rest
      else ' ' :: collapseWsGo true rest
    else c :: collapseWsGo false rest

/-- Python `re.sub(r"\s+", " ", s)`: collapse every whitespace run to a
single space. -/
def collapseWs (l : List Char) : List Char := collapseWsGo false l

/-- `_norm` of `offline_analyzer.py`:
`re.sub(r"\s+", " ", (s or "").strip().lower())`. -/
def norm (l : List Char) : List Char :=
  collapseWs ((pyStrip l).map pyLower)

/-- String-level wrapper of `norm`. -/
def normStr (s : String) : String := String.mk (norm s.toList)

/-! ## Tokenizer (`_tokenize` of `offline_analyzer.py`) -/

/-- Is the character at index `k` present and not whitespace? -/
def nonSpaceAt (l : List Char) (k : Nat) : Bool :=
  match l.drop k with
  | [] => false
  | d :: _ => !pyIsSpace d

/-- Does the regex `https?://\S+` match at the head of `l`?  It does when
`l` starts with a scheme and at least one non-whitespace character
follows it. -/
def urlStartB (l : List Char) : Bool :=
  ((String.toList "http://").isPrefixOf l && nonSpaceAt l 7)
    || ((String.toList "https://").isPrefixOf l && nonSpaceAt l 8)

/-- Worker for `re.sub(r"https?://\S+", " ", t)`.  In skipping mode
(`skipping = true`) the maximal non-whitespace run that began with a
matched scheme is being consumed. -/
def stripUrlsGo : Bool → List Char → List Char
  | _, [] => []
  | true, c :: rest =>
    if pyIsSpace c then c :: stripUrlsGo false rest
    else stripUrlsGo true rest
  | false, c :: rest =>
    if urlStartB (c :: rest) then ' ' :: stripUrlsGo true rest
    else c :: stripUrlsGo false rest

def stripUrls (l : List Char) : List Char := stripUrlsGo false l

/-- First index at which `pat` occurs as a contiguous sublist of `l`. -/
def indexOfSub (pat : List Char) : List Char → Option Nat
  | [] => if pat.isEmpty then some 0 else none
  | c :: rest =>
    if pat.isPrefixOf (c :: rest) then some 0
    else (indexOfSub pat rest).map (· + 1)

/-- Python substring containment `pat in l` (`in` on `str`). -/
def containsSub (pat : List Char) : List Char → Bool
  | [] => pat.isEmpty
  | c :: rest => pat.isPrefixOf (c :: rest) || containsSub pat rest

/-- Worker replacing each non-greedy delimited span `pat …minimal… pat`
by a single space, as `re.sub` does for the code-fence and inline-code
patterns.  The `Nat` argument counts characters of a recognised span
still to be consumed silently. -/
def replDelimGo (pat : List Char) : Nat → List Char → List Char
  | Nat.succ k, _ :: rest => replDelimGo pat k rest
  | Nat.succ _, [] => []
  | 0, [] => []
  | 0, c :: rest =>
    if pat.isPrefixOf (c :: rest) then
      match indexOfSub pat ((c :: rest).drop pat.length) with
      | some i =>
        -- span length: opener + minimal content + closer; `c` is already consumed
        ' ' :: replDelimGo pat (pat.length + i + pat.length - 1) rest
      | none => c :: rest  -- unmatched opener: no further pair can exist
    else c :: replDelimGo pat 0 rest

/-- Replace every `pat …minimal… pat` span by a space
(`re.sub(pat + ".*?" + pat, " ", t)` with DOTALL). -/
def replDelim (pat : List Char) (l : List Char) : List Char := replDelimGo pat 0 l

/-- The characters mapped to a space by
`t.replace("/", " ").replace(":", " ").replace(";", " ")` and
`re.sub(r"[\(\)\[\]\{\}\*\_\"“”]", " ", t)`. -/
def punctToSpace (c : Char) : Char :=
  if c = '/' || c = ':' || c = ';'
      || c = '(' || c = ')' || c = '[' || c = ']'
      || c = Char.ofNat 123 || c = Char.ofNat 125
      || c = '*' || c = Char.ofNat 95 || c = Char.ofNat 34
      || c = '“' || c = '”' then ' '
  else c

/-- `_tokenize` of `offline_analyzer.py`. -/
def tokenize (l : List Char) : List Char :=
  let t := norm l
  let t := stripUrls t
  let t := replDelim (String.toList "```") t
  let t := replDelim (String.toList "`") t
  let t := t.map punctToSpace
  pyStrip (collapseWs t)

def tokenizeStr (s : String) : String := String.mk (tokenize s.toList)

/-! ## Python lexicographic string comparison

Python compares `str` values lexicographically by code point.  The
comparison is modelled on `List Char` through `Char.toNat` so that all
proofs stay inside `Nat`. -/

def lexLeB : List Char → List Char → Bool
  | [], _ => true
  | _ :: _, [] => false
  | a :: l1, b :: l2 => if a.toNat = b.toNat then lexLeB l1 l2 else decide (a.toNat < b.toNat)

/-- Python `a <= b` on strings, as a proposition. -/
def strLe (a b : String) : Prop := lexLeB a.toList b.toList = true

instance : DecidableRel strLe := fun a b => by unfold strLe; infer_instance

/-! ## JSON values and Python coercions -/

/-- A JSON value as produced by `json.loads` (floats do not occur in the
corpora and configurations considered here and are not modelled). -/
inductive JVal where
  | jnull
  | jbool (b : Bool)
  | jint (n : Int)
  | jstr (s : String)
  | jarr (elems : List JVal)
  | jobj (fields : List (String × JVal))

/-- Python truthiness of a JSON value. -/
def pyTruthy : JVal → Bool
  | JVal.jnull => false
  | JVal.jbool b => b
  | JVal.jint n => n ≠ 0
  | JVal.jstr s => s ≠ ""
  | JVal.jarr l => !l.isEmpty
  | JVal.jobj l => !l.isEmpty

/-- Python `x or d` for JSON values. -/
def pyOrJ (v : JVal) (d : JVal) : JVal := if pyTruthy v then v else d

/-- Python `o or ""` for an optional string field. -/
def pyOrStr (o : Option String) (d : String) : String :=
  match o with
  | some s => if s = "" then d else s
  | none => d

/-- Digit-string to number; `none` unless the list is a non-empty run of
decimal digits. -/
def digitsToNatGo : Nat → List Char → Option Nat
  | acc, [] => some acc
  | acc, c :: rest =>
    if c.isDigit then digitsToNatGo (acc * 10 + (c.toNat - 48)) rest else none

def digitsToNat : List Char → Option Nat
  | [] => none
  | l => digitsToNatGo 0 l

/-- Python `int(s)` on a string: surrounding whitespace is stripped, an
optional sign precedes a non-empty digit run (underscore separators,
accepted by CPython, are not modelled; no input below uses them). -/
def pyParseInt (s : String) : Option Int :=
  match pyStrip s.toList with
  | '+' :: ds => (digitsToNat ds).map Int.ofNat
  | '-' :: ds => (digitsToNat ds).map (fun n => -(n : Int))
  | ds => (digitsToNat ds).map Int.ofNat

/-- Python `int(x)` on a JSON value: `none` models a raised exception. -/
def pyIntCast : JVal → Option Int
  | JVal.jnull => none
  | JVal.jbool b => some (if b then 1 else 0)
  | JVal.jint n => some n
  | JVal.jstr s => pyParseInt s
  | JVal.jarr _ => none
  | JVal.jobj _ => none

/-- Is the value a JSON object (a Python `dict`)? -/
def isObjB : JVal → Bool
  | JVal.jobj _ => true
  | _ => false

namespace OfflineAnalyzer

/-! ## `offline_analyzer.py` -/

/-- `_safe_int`: `None` and `bool` give `None`, `int(x)` otherwise with
every exception swallowed to `None`. -/
def safe_int : JVal → Option Int
  | JVal.jnull => none
  | JVal.jbool _ => none
  | JVal.jint n => some n
  | JVal.jstr s => pyParseInt s
  | JVal.jarr _ => none
  | JVal.jobj _ => none

/-- The scoring configuration after the integer conversions performed at
the top of `score_paper` (`int(w.get("relevance_max", 60))` and so on). -/
structure Config where
  relevance_max : Int
  impact_max : Int
  recency_max : Int
  points_per_hit : Int
  max_unique_hits : Int
  stopwords : List String
  topic_keywords : List String

/-- `DEFAULT_CONFIG` of `offline_analyzer.py`. -/
def defaultConfig : Config where
  relevance_max := 60
  impact_max := 20
  recency_max := 20
  points_per_hit := 6
  max_unique_hits := 10
  stopwords := [ "and", "the", "with", "from", "into", "for", "to", "of",
    "in", "on", "by", "using", "based", "approach", "framework", "system",
    "model", "data"]
  topic_keywords := [ "emotion regulation", "ecological momentary assessment",
    "experience sampling", "digital mental health", "affective computing",
    "multimodal", "wearable"]

/-- A paper record.  The free-text fields are optional strings
(`p.get(...) or ""` in the source); `year` and `citationCount` are raw
JSON values because scoring must cope with malformed data there. -/
structure Paper where
  title : Option String := none
  abstract : Option String := none
  venue : Option String := none
  year : JVal := JVal.jnull
  citationCount : JVal := JVal.jnull
  url : Option String := none
  doi : Option String := none

/-- The `PaperScore` dataclass. -/
structure PaperScore where
  score : Int
  relevance : Int
  impact : Int
  recency : Int
  reason : String
deriving DecidableEq

/-- Python `l[:n]` (slice from the start; a negative `n` counts from the
end). -/
def pySlice {α : Type} (l : List α) (n : Int) : List α :=
  if 0 ≤ n then l.take n.toNat
  else l.take (l.length - (-n).toNat)

/-- The matching test of `_relevance_points` for one keyword: the
normalised keyword is contained in the tokenized text (`k in t`). -/
def offlineMatched (kw : String) (text : String) : Bool :=
  containsSub (normStr kw).toList (tokenize text.toList)

/-- The hit list built by the loop of `_relevance_points`: each
normalised keyword that is non-empty, not a stopword and contained in
the tokenized text. -/
def relevanceHits (text : String) (keywords : List String)
    (stopwords : List String) : List String :=
  keywords.filterMap (fun kw =>
    let k := normStr kw
    if k = "" then none
    else if stopwords.contains k then none
    else if offlineMatched kw text then some k else none)

/-- `_relevance_points`.  Keywords are normalised, skipped when empty or
a stopword, and matched by substring containment in the tokenized text;
`sorted(set(hits))` is the deduplicated, lexicographically sorted hit
list. -/
def relevance_points (text : String) (keywords : List String)
    (stopwords : List String) (max_hits : Int) (pph : Int) : Int × List String :=
  let hits := relevanceHits text keywords stopwords
  let uniq := List.insertionSort strLe hits.dedup
  let uniq2 := pySlice uniq max_hits
  (min (max_hits * pph) ((uniq2.length : Int) * pph), uniq2)

/-- Spec-side counterpart for the relevance claim: the number of
distinct non-stopword keywords found as substrings of the normalized
text (the length of `set(hits)`). -/
def uniqueHitCount (text : String) (keywords : List String)
    (stopwords : List String) : Nat :=
  (relevanceHits text keywords stopwords).dedup.length

/-- `_impact_points`.  The float products `max_points * 0.85` … are
modelled by exact arithmetic with `int()` truncation (`Int.tdiv`); for
the configured maxima used by the program (20, and also 60 and 100) the
CPython float computation was checked to give exactly these values. -/
def impact_points (citation_count : Option Int) (max_points : Int) : Int :=
  let c := match citation_count with | none => 0 | some v => v
  if c ≤ 0 then 0
  else if 500 ≤ c then max_points
  else if 200 ≤ c then (max_points * 85).tdiv 100
  else if 100 ≤ c then (max_points * 70).tdiv 100
  else if 50 ≤ c then (max_points * 55).tdiv 100
  else if 20 ≤ c then (max_points * 40).tdiv 100
  else if 10 ≤ c then (max_points * 25).tdiv 100
  else (max_points * 10).tdiv 100

/-- Python `round` (ties to even) of `n / 10`. -/
def pyRound10 (n : Int) : Int :=
  if n % 10 < 5 then n / 10
  else if 5 < n % 10 then n / 10 + 1
  else if (n / 10) % 2 = 0 then n / 10 else n / 10 + 1

/-- `_recency_points`.  `round(max_points * (1 - age / 10))` is
`pyRound10 (max_points * (10 - age))` in exact arithmetic; for the
configured maximum 20 the CPython float computation was checked to give
exactly these values. -/
def recency_points (year : Option Int) (max_points : Int) (this_year : Int) : Int :=
  let y := match year with | none => 0 | some v => v
  if y ≤ 0 then 0
  else
    let age := max 0 (this_year - y)
    if 10 ≤ age then 0
    else pyRound10 (max_points * (10 - age))

/-- `score_paper` of `offline_analyzer.py`. -/
def score_paper (p : Paper) (cfg : Config) (this_year : Int) : PaperScore :=
  let stopwordsSet := cfg.stopwords.map normStr
  let title := p.title.getD ""
  let abstract := p.abstract.getD ""
  let venue := p.venue.getD ""
  let text := title ++ "\n" ++ abstract ++ "\n" ++ venue
  let rp := relevance_points text cfg.topic_keywords stopwordsSet
    cfg.max_unique_hits cfg.points_per_hit
  let relevance_pts := min cfg.relevance_max rp.1
  let hits := rp.2
  let citations := safe_int p.citationCount
  let impact_pts := min cfg.impact_max (impact_points citations cfg.impact_max)
  let year := safe_int p.year
  let recency_pts := min cfg.recency_max (recency_points year cfg.recency_max this_year)
  let total := min 100 (relevance_pts + impact_pts + recency_pts)
  let reasonBits :=
    (if hits.isEmpty then [] else [ "kw=" ++ String.intercalate "," (hits.take 6)])
      ++ (match citations with
          | some c => [ "citations=" ++ toString c]
          | none => [])
      ++ (match year with
          | some y => if y ≠ 0 then [ "year=" ++ toString y] else []
          | none => [])
  { score := total
    relevance := relevance_pts
    impact := impact_pts
    recency := recency_pts
    reason := String.intercalate "; " reasonBits }

/-- The message of the `ValueError` raised by `load_papers`. -/
def loadPapersError : String :=
  "Input JSON must be a list[dict] (or a dict with key \x27data\x27)."

/-- `load_papers` after `json.loads`: unwrap a `data` key, demand a
list, drop the non-`dict` elements.  The raised `ValueError` is the
`Except.error` case. -/
def load_papers (data : JVal) : Except String (List JVal) :=
  let data1 := match data with
    | JVal.jobj fields =>
      match fields.lookup "data" with
      | some v => v
      | none => JVal.jobj fields
    | d => d
  match data1 with
  | JVal.jarr elems => Except.ok (elems.filter isObjB)
  | _ => Except.error loadPapersError

/-- One output row of `analyze_corpus` (the CSV serialisation itself is
I/O and outside the model). -/
structure Row where
  score : Int
  relevance : Int
  impact : Int
  recency : Int
  year : JVal
  citationCount : JVal
  title : String
  venue : String
  url : String
  reason : String

/-- The row built for one paper inside `analyze_corpus`. -/
def mkRow (cfg : Config) (this_year : Int) (p : Paper) : Row :=
  let sc := score_paper p cfg this_year
  { score := sc.score
    relevance := sc.relevance
    impact := sc.impact
    recency := sc.recency
    year := pyOrJ p.year (JVal.jstr "")
    citationCount := pyOrJ p.citationCount (JVal.jstr "")
    title := p.title.getD ""
    venue := p.venue.getD ""
    url := pyOrStr p.url (pyOrStr p.doi "")
    reason := sc.reason }

/-- The secondary sort key `r.get("year") or 0`. -/
def yearKey (r : Row) : JVal := pyOrJ r.year (JVal.jint 0)

/-- Kind of a sort-key value for Python comparison: numbers (`int`,
`bool`) are mutually comparable, strings are comparable with strings,
anything else raises `TypeError` against everything (Python also orders
`list` against `list`; list-valued years do not occur in any statement
below). -/
def keyKind : JVal → Nat
  | JVal.jint _ => 0
  | JVal.jbool _ => 0
  | JVal.jstr _ => 1
  | _ => 2

def keyNum : JVal → Int
  | JVal.jint n => n
  | JVal.jbool b => if b then 1 else 0
  | _ => 0

def keyStr : JVal → String
  | JVal.jstr s => s
  | _ => ""

def keysComparableB (a b : JVal) : Bool :=
  (keyKind a = 0 && keyKind b = 0) || (keyKind a = 1 && keyKind b = 1)

/-- Can Python compare the sort keys of two rows?  Tuple comparison
short-circuits on the score, so the year keys are only compared on a
score tie. -/
def rowComparableB (r1 r2 : Row) : Bool :=
  r1.score ≠ r2.score || keysComparableB (yearKey r1) (yearKey r2)

/-- Every pair of rows comparable (`list.sort` compares at least every
adjacent pair, so on the two-row lists evaluated below this is exactly
the no-`TypeError` condition). -/
def allComparableB : List Row → Bool
  | [] => true
  | r :: rest => rest.all (rowComparableB r) && allComparableB rest

/-- Total extension of Python `<=` on sort-key values: numbers before
strings before the rest, numbers by value, strings lexicographically.
On the kinds Python can actually compare it coincides with Python. -/
def keyLe (a b : JVal) : Prop :=
  keyKind a < keyKind b
    ∨ (keyKind a = keyKind b
        ∧ (keyNum a < keyNum b
            ∨ (keyNum a = keyNum b ∧ strLe (keyStr a) (keyStr b))))

instance : DecidableRel keyLe := fun a b => by unfold keyLe; infer_instance

/-- The descending order of
`scored.sort(key=lambda r: (r.get("score", 0), r.get("year") or 0), reverse=True)`:
`r1` may precede `r2` when the key of `r2` is at most the key of `r1`. -/
def descLe (r1 r2 : Row) : Prop :=
  r2.score < r1.score ∨ (r2.score = r1.score ∧ keyLe (yearKey r2) (yearKey r1))

instance : DecidableRel descLe := fun r1 r2 => by unfold descLe; infer_instance

/-- The scoring-and-sorting part of `analyze_corpus` (configuration
loading and CSV writing are I/O glue).  `none` models the `TypeError`
raised when incomparable sort keys meet; otherwise the rows are emitted
sorted by descending `(score, year)`. -/
def analyze_rows (papers : List Paper) (cfg : Config) (this_year : Int) :
    Option (List Row) :=
  let scored := papers.map (mkRow cfg this_year)
  if allComparableB scored then some (List.insertionSort descLe scored)
  else none

end OfflineAnalyzer

namespace Scoring

/-! ## `scoring.py` -/

/-- The `Score` dataclass of `scoring.py`. -/
structure Score where
  total : Int
  relevance : Int
  impact : Int
  recency : Int
  note : String
deriving DecidableEq

/-- `DEFAULT_KEYWORDS` (a `dict`; Python dicts iterate in insertion
order, hence a list of pairs). -/
def DEFAULT_KEYWORDS : List (String × Int) :=
  [ ("emotion regulation", 18)
  , ("affective computing", 18)
  , ("ecological momentary assessment", 18)
  , ("experience sampling", 14)
  , ("digital mental health", 16)
  , ("resilience", 10)
  , ("mental health", 10)
  , ("wearable", 8)
  , ("multimodal", 8)
  , ("emotion", 3) ]

/-- `_impact_points` of `scoring.py` (hard-coded 0..20 buckets). -/
def impact_points (citations : Int) : Int :=
  let c := max 0 citations
  if 500 ≤ c then 20
  else if 200 ≤ c then 17
  else if 100 ≤ c then 14
  else if 50 ≤ c then 11
  else if 20 ≤ c then 8
  else if 10 ≤ c then 5
  else if 1 ≤ c then 2
  else 0

/-- `_recency_points` of `scoring.py`.  The source reads
`this_year = date.today().year` inside the function; that ambient
wall-clock value is made an explicit parameter `todayYear` of the
embedding. -/
def recency_points (year : Int) (todayYear : Int) : Int :=
  if year ≤ 0 then 0
  else
    let age := max 0 (todayYear - year)
    if 10 ≤ age then 0
    else OfflineAnalyzer.pyRound10 (20 * (10 - age))

/-- The order `key=lambda x: (-x[1], x[0])` on weighted hits. -/
def hitOrder (a b : String × Int) : Prop :=
  b.2 < a.2 ∨ (a.2 = b.2 ∧ strLe a.1 b.1)

instance : DecidableRel hitOrder := fun a b => by unfold hitOrder; infer_instance

/-- The matching test of `score_text` for one keyword: containment in
the lower-cased text (no tokenization in this variant). -/
def scoringMatched (kw : String) (text : String) : Bool :=
  containsSub kw.toList (text.toList.map pyLower)

/-- `score_text`: sum of the weights of the keywords contained in the
lower-cased text, clamped to 0..60, plus the matched keywords sorted by
descending weight then lexicographically. -/
def score_text (text : String) (keywords : Option (List (String × Int))) :
    Int × List String :=
  let kws := match keywords with
    | some l => if l.isEmpty then DEFAULT_KEYWORDS else l
    | none => DEFAULT_KEYWORDS
  let hitsW := kws.filter (fun kw => Scoring.scoringMatched kw.1 text)
  let total := (hitsW.map (fun kw => kw.2)).sum
  let total2 := max 0 (min 60 total)
  let sortedHits := List.insertionSort hitOrder hitsW
  (total2, sortedHits.map (fun kw => kw.1))

/-- `score_paper` of `scoring.py`.  `todayYear` is the wall-clock year
read by `_recency_points`. -/
def score_paper (paper : OfflineAnalyzer.Paper)
    (keywords : Option (List (String × Int))) (todayYear : Int) : Score :=
  let title := paper.title.getD ""
  let abstract := paper.abstract.getD ""
  let venue := paper.venue.getD ""
  let text := title ++ "\n" ++ abstract ++ "\n" ++ venue
  let st := score_text text keywords
  let relevance := st.1
  let hits := st.2
  let citations := (pyIntCast (pyOrJ paper.citationCount (JVal.jint 0))).getD 0
  let impact := impact_points citations
  let year := (pyIntCast (pyOrJ paper.year (JVal.jint 0))).getD 0
  let recency := recency_points year todayYear
  let total := max 0 (min 100 (relevance + impact + recency))
  let noteBits :=
    (if hits.isEmpty then [] else [ "hits: " ++ String.intercalate ", " (hits.take 6)])
      ++ (if citations ≠ 0 then [ "citations=" ++ toString citations] else [])
      ++ (if year ≠ 0 then [ "year=" ++ toString year] else [])
  { total := total
    relevance := relevance
    impact := impact
    recency := recency
    note := String.intercalate "; " noteBits }

end Scoring

namespace OfflineAnalyzer

/-- A run of the offline scorer at wall-clock year `wallClockYear`.  The
offline core never reads the clock — the reference year `this_year` is
an explicit argument all the way down — so the wall-clock parameter is
simply unused. -/
def score_paper_run (wallClockYear : Int) (p : Paper) (cfg : Config)
    (this_year : Int) : PaperScore :=
  let _ := wallClockYear
  score_paper p cfg this_year

/-- Spec-side reading of the secondary sort key: the year of the row,
with a missing year treated as 0. -/
def yearKeyInt (r : Row) : Int :=
  match yearKey r with
  | JVal.jint n => n
  | _ => 0

/-- A paper record in the sense of the spec data model: the `year`
field, when present, is an integer. -/
def wellTypedYearB (p : Paper) : Bool :=
  match p.year with
  | JVal.jnull => true
  | JVal.jint _ => true
  | _ => false

/-- The sort key of the row is an integer. -/
def rowIntKeyB (r : Row) : Bool :=
  match yearKey r with
  | JVal.jint _ => true
  | _ => false

/-- The claim-side descending order on emitted rows: non-increasing
score, and among equal scores the larger year (missing year read as 0)
first. -/
def specDesc (r1 r2 : Row) : Prop :=
  r2.score < r1.score ∨ (r2.score = r1.score ∧ yearKeyInt r2 ≤ yearKeyInt r1)

/-- Does the parsed corpus value have the shape `{..., "data": v, ...}`? -/
def objHasDataB : JVal → Bool
  | JVal.jobj fields => (fields.lookup "data").isSome
  | _ => false

/-- Is the value a JSON array? -/
def isArrB : JVal → Bool
  | JVal.jarr _ => true
  | _ => false

end OfflineAnalyzer

/-- Rounding half-to-even on the rationals: the semantics of Python's
builtin `round` on exactly-representable values.  Spec-side definition
for the recency-formula claim. -/
def roundHalfEvenQ (x : ℚ) : Int :=
  if Int.fract x < 1/2 then ⌊x⌋
  else if 1/2 < Int.fract x then ⌊x⌋ + 1
  else if ⌊x⌋ % 2 = 0 then ⌊x⌋ else ⌊x⌋ + 1

/-! ## Helper lemmas -/

theorem pyRound10_mono {a b : Int} (h : a ≤ b) :
    OfflineAnalyzer.pyRound10 a ≤ OfflineAnalyzer.pyRound10 b := by
  unfold OfflineAnalyzer.pyRound10
  split_ifs <;> omega

theorem pyRound10_nonneg {a : Int} (h : 0 ≤ a) : 0 ≤ OfflineAnalyzer.pyRound10 a := by
  unfold OfflineAnalyzer.pyRound10
  split_ifs <;> omega

theorem tdiv100_nonneg {m a : Int} (hm : 0 ≤ m) (ha : 0 ≤ a) :
    0 ≤ (m * a).tdiv 100 := by
  rw [Int.tdiv_eq_ediv (mul_nonneg hm ha) (by norm_num)]
  exact Int.ediv_nonneg (mul_nonneg hm ha) (by norm_num)

theorem tdiv100_mono {m a b : Int} (hm : 0 ≤ m) (ha : 0 ≤ a) (hab : a ≤ b) :
    (m * a).tdiv 100 ≤ (m * b).tdiv 100 := by
  rw [Int.tdiv_eq_ediv (mul_nonneg hm ha) (by norm_num),
    Int.tdiv_eq_ediv (mul_nonneg hm (le_trans ha hab)) (by norm_num)]
  exact Int.ediv_le_ediv (by norm_num) (mul_le_mul_of_nonneg_left hab hm)

theorem tdiv100_le_self {m a : Int} (hm : 0 ≤ m) (ha : 0 ≤ a) (ha' : a ≤ 100) :
    (m * a).tdiv 100 ≤ m := by
  have h1 : (m * a).tdiv 100 ≤ (m * 100).tdiv 100 := tdiv100_mono hm ha ha'
  have h2 : (m * 100).tdiv 100 = m := by
    rw [Int.tdiv_eq_ediv (mul_nonneg hm (by norm_num)) (by norm_num)]
    exact Int.mul_ediv_cancel m (by norm_num : (100 : Int) ≠ 0)
  rw [h2] at h1
  exact h1

/-- Python's float `round(n / 10)` is ties-to-even rounding of the
exact rational `n / 10`. -/
theorem roundHalfEvenQ_div10 (n : Int) :
    roundHalfEvenQ ((n : ℚ) / 10) = OfflineAnalyzer.pyRound10 n := by
  have hq : n = 10 * (n / 10) + n % 10 := (Int.ediv_add_emod n 10).symm
  have hr0 : 0 ≤ n % 10 := Int.emod_nonneg n (by norm_num)
  have hr10 : n % 10 < 10 := Int.emod_lt_of_pos n (by norm_num)
  have hcast := congrArg (fun z : Int => (z : ℚ)) hq
  push_cast at hcast
  have hx : (n : ℚ) / 10 = ((n % 10 : Int) : ℚ) / 10 + ((n / 10 : Int) : ℚ) := by
    rw [hcast]
    ring
  have hfr0 : ⌊((n % 10 : Int) : ℚ) / 10⌋ = 0 := by
    apply Int.floor_eq_zero_iff.mpr
    constructor
    · positivity
    · rw [div_lt_one (by norm_num)]
      exact_mod_cast hr10
  have hfl : ⌊(n : ℚ) / 10⌋ = n / 10 := by
    rw [hx, Int.floor_add_int, hfr0, zero_add]
  have hfr : Int.fract ((n : ℚ) / 10) = ((n % 10 : Int) : ℚ) / 10 := by
    rw [Int.fract, hfl, hx]
    ring
  have hlt : (Int.fract ((n : ℚ) / 10) < 1 / 2) ↔ (n % 10 < 5) := by
    rw [hfr, div_lt_iff₀ (by norm_num : (0 : ℚ) < 10)]
    constructor
    · intro h
      have h5 : ((n % 10 : Int) : ℚ) < 5 := by linarith
      exact_mod_cast h5
    · intro h
      have h5 : ((n % 10 : Int) : ℚ) < 5 := by exact_mod_cast h
      linarith
  have hgt : (1 / 2 < Int.fract ((n : ℚ) / 10)) ↔ (5 < n % 10) := by
    rw [hfr, lt_div_iff₀ (by norm_num : (0 : ℚ) < 10)]
    constructor
    · intro h
      have h5 : (5 : ℚ) < ((n % 10 : Int) : ℚ) := by linarith
      exact_mod_cast h5
    · intro h
      have h5 : (5 : ℚ) < ((n % 10 : Int) : ℚ) := by exact_mod_cast h
      linarith
  unfold roundHalfEvenQ OfflineAnalyzer.pyRound10
  simp only [hfl]
  by_cases h1 : n % 10 < 5
  · rw [if_pos (hlt.mpr h1), if_pos h1]
  · rw [if_neg (fun hc => h1 (hlt.mp hc)), if_neg h1]
    by_cases h2 : 5 < n % 10
    · rw [if_pos (hgt.mpr h2), if_pos h2]
    · rw [if_neg (fun hc => h2 (hgt.mp hc)), if_neg h2]

theorem lexLeB_refl : ∀ l : List Char, lexLeB l l = true := by
  intro l
  induction l with
  | nil => rfl
  | cons a l1 ih => simp [lexLeB, ih]

theorem lexLeB_total : ∀ a b : List Char, lexLeB a b = true ∨ lexLeB b a = true := by
  intro a
  induction a with
  | nil => intro b; left; rfl
  | cons x l1 ih =>
    intro b
    cases b with
    | nil => right; rfl
    | cons y l2 =>
      simp only [lexLeB]
      by_cases hxy : x.toNat = y.toNat
      · simp only [hxy, if_pos rfl, if_true]
        rcases ih l2 with h | h
        · left; exact h
        · right; simpa [hxy] using h
      · have hyx : ¬ y.toNat = x.toNat := fun h => hxy h.symm
        rw [if_neg hxy, if_neg hyx]
        simp only [decide_eq_true_eq]
        omega

theorem lexLeB_trans : ∀ a b c : List Char,
    lexLeB a b = true → lexLeB b c = true → lexLeB a c = true := by
  intro a
  induction a with
  | nil => intro b c _ _; rfl
  | cons x l1 ih =>
    intro b c hab hbc
    cases b with
    | nil => simp [lexLeB] at hab
    | cons y l2 =>
      cases c with
      | nil => simp [lexLeB] at hbc
      | cons z l3 =>
        simp only [lexLeB] at hab hbc ⊢
        by_cases hxy : x.toNat = y.toNat
        · rw [if_pos hxy] at hab
          by_cases hyz : y.toNat = z.toNat
          · rw [if_pos hyz] at hbc
            rw [if_pos (hxy.trans hyz)]
            exact ih l2 l3 hab hbc
          · rw [if_neg hyz] at hbc
            have hxz : ¬ x.toNat = z.toNat := by omega
            rw [if_neg hxz]
            simp only [decide_eq_true_eq] at hbc ⊢
            omega
        · rw [if_neg hxy] at hab
          simp only [decide_eq_true_eq] at hab
          by_cases hyz : y.toNat = z.toNat
          · have hxz : ¬ x.toNat = z.toNat := by omega
            rw [if_neg hxz]
            simp only [decide_eq_true_eq]
            omega
          · rw [if_neg hyz] at hbc
            simp only [decide_eq_true_eq] at hbc
            have hxz : ¬ x.toNat = z.toNat := by omega
            rw [if_neg hxz]
            simp only [decide_eq_true_eq]
            omega

theorem strLe_total (a b : String) : strLe a b ∨ strLe b a := lexLeB_total _ _

theorem strLe_trans {a b c : String} (h1 : strLe a b) (h2 : strLe b c) : strLe a c :=
  lexLeB_trans _ _ _ h1 h2

namespace OfflineAnalyzer

theorem keyLe_total (a b : JVal) : keyLe a b ∨ keyLe b a := by
  unfold keyLe
  rcases Nat.lt_trichotomy (keyKind a) (keyKind b) with hk | hk | hk
  · left; left; exact hk
  · rcases lt_trichotomy (keyNum a) (keyNum b) with hn | hn | hn
    · left; right; exact ⟨hk, Or.inl hn⟩
    · rcases strLe_total (keyStr a) (keyStr b) with hs | hs
      · left; right; exact ⟨hk, Or.inr ⟨hn, hs⟩⟩
      · right; right; exact ⟨hk.symm, Or.inr ⟨hn.symm, hs⟩⟩
    · right; right; exact ⟨hk.symm, Or.inl hn⟩
  · right; left; exact hk

instance : IsTotal Row descLe where
  total r1 r2 := by
    unfold descLe
    rcases lt_trichotomy r1.score r2.score with h | h | h
    · right; left; exact h
    · rcases keyLe_total (yearKey r1) (yearKey r2) with hk | hk
      · right; right; exact ⟨h, hk⟩
      · left; right; exact ⟨h.symm, hk⟩
    · left; left; exact h

instance : IsTrans Row descLe where
  trans r1 r2 r3 h12 h23 := by
    unfold descLe keyLe at h12 h23 ⊢
    rcases h12 with h12 | ⟨h12e, h12k⟩
    · rcases h23 with h23 | ⟨h23e, _⟩
      · left; omega
      · left; omega
    · rcases h23 with h23 | ⟨h23e, h23k⟩
      · left; omega
      · right
        refine ⟨by omega, ?_⟩
        rcases h12k with hk | ⟨hke, hrest⟩
        · rcases h23k with hk' | ⟨hke', _⟩
          · left; omega
          · left; omega
        · rcases h23k with hk' | ⟨hke', hrest'⟩
          · left; omega
          · right
            refine ⟨by omega, ?_⟩
            rcases hrest with hn | ⟨hne, hs⟩
            · rcases hrest' with hn' | ⟨hne', _⟩
              · left; omega
              · left; omega
            · rcases hrest' with hn' | ⟨hne', hs'⟩
              · left; omega
              · right
                exact ⟨by omega, strLe_trans hs' hs⟩

theorem relevance_points_fst_nonneg {t : String} {kws sws : List String}
    {mh pph : Int} (hm : 0 ≤ mh) (hp : 0 ≤ pph) :
    0 ≤ (relevance_points t kws sws mh pph).1 := by
  unfold relevance_points
  exact le_min (mul_nonneg hm hp) (mul_nonneg (Int.natCast_nonneg _) hp)

theorem impact_points_nonneg {c : Option Int} {maxP : Int} (h : 0 ≤ maxP) :
    0 ≤ impact_points c maxP := by
  unfold impact_points
  dsimp only
  split_ifs <;>
    first
      | exact le_refl 0
      | exact h
      | exact tdiv100_nonneg h (by norm_num)

theorem recency_points_nonneg {y : Option Int} {maxP ty : Int} (h : 0 ≤ maxP) :
    0 ≤ recency_points y maxP ty := by
  unfold recency_points
  dsimp only
  split_ifs with h1 h2
  · exact le_refl 0
  · exact le_refl 0
  · exact pyRound10_nonneg (mul_nonneg h (by omega))

end OfflineAnalyzer

namespace Claims

open OfflineAnalyzer

/-- C3.  For a positive year within the 10-year window, the recency
score at the configured maximum 20 equals ties-to-even rounding of
`max × (1 − age/10)`; the score is 0 exactly from age 10 on and for a
missing or non-positive year, equals the configured maximum at age 0,
and is monotonically non-increasing in the age. -/
theorem recency_linear_decay :
    (∀ maxP ty : Int, recency_points none maxP ty = 0)
    ∧ (∀ y maxP ty : Int, y ≤ 0 → recency_points (some y) maxP ty = 0)
    ∧ (∀ y maxP ty : Int, 0 < y → 10 ≤ ty - y → recency_points (some y) maxP ty = 0)
    ∧ (∀ y ty : Int, 0 < y → ty - y < 10 →
        recency_points (some y) 20 ty
          = roundHalfEvenQ ((20 : ℚ) * (1 - ((max 0 (ty - y) : Int) : ℚ) / 10)))
    ∧ (∀ y ty : Int, 0 < y → ty - y ≤ 0 → recency_points (some y) 20 ty = 20)
    ∧ (∀ maxP ty y1 y2 : Int, 0 ≤ maxP → y1 ≤ y2 →
        recency_points (some y1) maxP ty ≤ recency_points (some y2) maxP ty) := by
  refine ⟨?_, ?_, ?_, ?_, ?_, ?_⟩
  · intro maxP ty; rfl
  · intro y maxP ty hy
    unfold recency_points
    dsimp only
    rw [if_pos hy]
  · intro y maxP ty hy hage
    unfold recency_points
    dsimp only
    rw [if_neg (by omega)]
    rw [if_pos (by omega : (10 : Int) ≤ max 0 (ty - y))]
  · intro y ty hy hage
    unfold recency_points
    dsimp only
    rw [if_neg (by omega)]
    rw [if_neg (by omega : ¬ (10 : Int) ≤ max 0 (ty - y))]
    have hcast : (20 : ℚ) * (1 - ((max 0 (ty - y) : Int) : ℚ) / 10)
        = ((20 * (10 - max 0 (ty - y)) : Int) : ℚ) / 10 := by
      push_cast
      ring
    rw [hcast, roundHalfEvenQ_div10]
  · intro y ty hy hage
    unfold recency_points
    dsimp only
    rw [if_neg (by omega)]
    rw [if_neg (by omega : ¬ (10 : Int) ≤ max 0 (ty - y))]
    rw [show max 0 (ty - y) = 0 by omega]
    norm_num [pyRound10]
  · intro maxP ty y1 y2 hmax h
    unfold recency_points
    dsimp only
    by_cases hy1 : y1 ≤ 0
    · rw [if_pos hy1]
      by_cases hy2 : y2 ≤ 0
      · rw [if_pos hy2]
      · rw [if_neg hy2]
        by_cases ha2 : (10 : Int) ≤ max 0 (ty - y2)
        · rw [if_pos ha2]
        · rw [if_neg ha2]
          exact pyRound10_nonneg (mul_nonneg hmax (by omega))
    · rw [if_neg hy1]
      have hy2 : ¬ y2 ≤ 0 := by omega
      rw [if_neg hy2]
      by_cases ha1 : (10 : Int) ≤ max 0 (ty - y1)
      · rw [if_pos ha1]
        by_cases ha2 : (10 : Int) ≤ max 0 (ty - y2)
        · rw [if_pos ha2]
        · rw [if_neg ha2]
          exact pyRound10_nonneg (mul_nonneg hmax (by omega))
      · rw [if_neg ha1]
        have ha2 : ¬ (10 : Int) ≤ max 0 (ty - y2) := by omega
        rw [if_neg ha2]
        exact pyRound10_mono (mul_le_mul_of_nonneg_left (by omega) hmax)

set_option maxHeartbeats 1600000 in
/-- C4.  Impact is the documented step function over citation buckets:
an absent or non-positive count gives 0; at the configured maximum 20
the tiers are 100 / 85 / 70 / 55 / 40 / 25 / 10 percent of 20
(20, 17, 14, 11, 8, 5, 2); the `scoring.py` variant computes the same
function; and both are monotonically non-decreasing in the citation
count (the configurable one for every non-negative maximum). -/
theorem impact_step_function :
    (∀ maxP : Int, impact_points none maxP = 0)
    ∧ (∀ c maxP : Int, c ≤ 0 → impact_points (some c) maxP = 0)
    ∧ (∀ c : Int, 500 ≤ c → impact_points (some c) 20 = 20)
    ∧ (∀ c : Int, 200 ≤ c → c < 500 → impact_points (some c) 20 = 17)
    ∧ (∀ c : Int, 100 ≤ c → c < 200 → impact_points (some c) 20 = 14)
    ∧ (∀ c : Int, 50 ≤ c → c < 100 → impact_points (some c) 20 = 11)
    ∧ (∀ c : Int, 20 ≤ c → c < 50 → impact_points (some c) 20 = 8)
    ∧ (∀ c : Int, 10 ≤ c → c < 20 → impact_points (some c) 20 = 5)
    ∧ (∀ c : Int, 1 ≤ c → c < 10 → impact_points (some c) 20 = 2)
    ∧ (∀ c : Int, Scoring.impact_points c = impact_points (some c) 20)
    ∧ (∀ maxP c1 c2 : Int, 0 ≤ maxP → c1 ≤ c2 →
        impact_points (some c1) maxP ≤ impact_points (some c2) maxP)
    ∧ (∀ c1 c2 : Int, c1 ≤ c2 →
        Scoring.impact_points c1 ≤ Scoring.impact_points c2) := by
  have h85 : ((20 : Int) * 85).tdiv 100 = 17 := by decide
  have h70 : ((20 : Int) * 70).tdiv 100 = 14 := by decide
  have h55 : ((20 : Int) * 55).tdiv 100 = 11 := by decide
  have h40 : ((20 : Int) * 40).tdiv 100 = 8 := by decide
  have h25 : ((20 : Int) * 25).tdiv 100 = 5 := by decide
  have h10 : ((20 : Int) * 10).tdiv 100 = 2 := by decide
  refine ⟨?_, ?_, ?_, ?_, ?_, ?_, ?_, ?_, ?_, ?_, ?_, ?_⟩
  · intro maxP; rfl
  · intro c maxP hc
    unfold impact_points
    dsimp only
    rw [if_pos hc]
  · intro c hc
    unfold impact_points
    dsimp only
    rw [h85, h70, h55, h40, h25, h10]
    split_ifs <;> omega
  · intro c hc hc2
    unfold impact_points
    dsimp only
    rw [h85, h70, h55, h40, h25, h10]
    split_ifs <;> omega
  · intro c hc hc2
    unfold impact_points
    dsimp only
    rw [h85, h70, h55, h40, h25, h10]
    split_ifs <;> omega
  · intro c hc hc2
    unfold impact_points
    dsimp only
    rw [h85, h70, h55, h40, h25, h10]
    split_ifs <;> omega
  · intro c hc hc2
    unfold impact_points
    dsimp only
    rw [h85, h70, h55, h40, h25, h10]
    split_ifs <;> omega
  · intro c hc hc2
    unfold impact_points
    dsimp only
    rw [h85, h70, h55, h40, h25, h10]
    split_ifs <;> omega
  · intro c hc hc2
    unfold impact_points
    dsimp only
    rw [h85, h70, h55, h40, h25, h10]
    split_ifs <;> omega
  · intro c
    unfold Scoring.impact_points impact_points
    dsimp only
    rw [h85, h70, h55, h40, h25, h10]
    by_cases h0 : c ≤ 0
    · rw [if_pos h0, show max 0 c = 0 from by omega]
      norm_num
    · rw [if_neg h0, show max 0 c = c from by omega]
      by_cases hc1 : 500 ≤ c
      · simp only [if_pos hc1]
      · simp only [if_neg hc1]
        by_cases hc2 : 200 ≤ c
        · simp only [if_pos hc2]
        · simp only [if_neg hc2]
          by_cases hc3 : 100 ≤ c
          · simp only [if_pos hc3]
          · simp only [if_neg hc3]
            by_cases hc4 : 50 ≤ c
            · simp only [if_pos hc4]
            · simp only [if_neg hc4]
              by_cases hc5 : 20 ≤ c
              · simp only [if_pos hc5]
              · simp only [if_neg hc5]
                by_cases hc6 : 10 ≤ c
                · simp only [if_pos hc6]
                · simp only [if_neg hc6]
                  rw [if_pos (show (1 : Int) ≤ c from by omega)]
  · intro maxP c1 c2 hmax h
    clear h85 h70 h55 h40 h25 h10
    have hn10 : (0 : Int) ≤ (maxP * 10).tdiv 100 := tdiv100_nonneg hmax (by norm_num)
    have h10_25 : (maxP * 10).tdiv 100 ≤ (maxP * 25).tdiv 100 :=
      tdiv100_mono hmax (by norm_num) (by norm_num)
    have h25_40 : (maxP * 25).tdiv 100 ≤ (maxP * 40).tdiv 100 :=
      tdiv100_mono hmax (by norm_num) (by norm_num)
    have h40_55 : (maxP * 40).tdiv 100 ≤ (maxP * 55).tdiv 100 :=
      tdiv100_mono hmax (by norm_num) (by norm_num)
    have h55_70 : (maxP * 55).tdiv 100 ≤ (maxP * 70).tdiv 100 :=
      tdiv100_mono hmax (by norm_num) (by norm_num)
    have h70_85 : (maxP * 70).tdiv 100 ≤ (maxP * 85).tdiv 100 :=
      tdiv100_mono hmax (by norm_num) (by norm_num)
    have h85_max : (maxP * 85).tdiv 100 ≤ maxP :=
      tdiv100_le_self hmax (by norm_num) (by norm_num)
    unfold impact_points
    dsimp only
    set v10 := (maxP * 10).tdiv 100
    set v25 := (maxP * 25).tdiv 100
    set v40 := (maxP * 40).tdiv 100
    set v55 := (maxP * 55).tdiv 100
    set v70 := (maxP * 70).tdiv 100
    set v85 := (maxP * 85).tdiv 100
    clear_value v10 v25 v40 v55 v70 v85
    by_cases h0 : c1 ≤ 0
    · rw [if_pos h0]
      split_ifs <;> omega
    · rw [if_neg h0, if_neg (show ¬ c2 ≤ 0 from by omega)]
      by_cases ha : 500 ≤ c1
      · rw [if_pos ha, if_pos (show 500 ≤ c2 from by omega)]
      · rw [if_neg ha]
        by_cases hb : 200 ≤ c1
        · rw [if_pos hb]
          split_ifs <;> omega
        · rw [if_neg hb]
          by_cases hc : 100 ≤ c1
          · rw [if_pos hc]
            split_ifs <;> omega
          · rw [if_neg hc]
            by_cases hd : 50 ≤ c1
            · rw [if_pos hd]
              split_ifs <;> omega
            · rw [if_neg hd]
              by_cases he : 20 ≤ c1
              · rw [if_pos he]
                split_ifs <;> omega
              · rw [if_neg he]
                by_cases hf : 10 ≤ c1
                · rw [if_pos hf]
                  split_ifs <;> omega
                · rw [if_neg hf]
                  split_ifs <;> omega
  · intro c1 c2 h
    clear h85 h70 h55 h40 h25 h10
    unfold Scoring.impact_points
    dsimp only
    have hm : max 0 c1 ≤ max 0 c2 := by omega
    set m1 := max 0 c1
    set m2 := max 0 c2
    clear_value m1 m2
    by_cases ha : 500 ≤ m1
    · rw [if_pos ha, if_pos (show 500 ≤ m2 from by omega)]
    · rw [if_neg ha]
      by_cases hb : 200 ≤ m1
      · rw [if_pos hb]
        split_ifs <;> omega
      · rw [if_neg hb]
        by_cases hc : 100 ≤ m1
        · rw [if_pos hc]
          split_ifs <;> omega
        · rw [if_neg hc]
          by_cases hd : 50 ≤ m1
          · rw [if_pos hd]
            split_ifs <;> omega
          · rw [if_neg hd]
            by_cases he : 20 ≤ m1
            · rw [if_pos he]
              split_ifs <;> omega
            · rw [if_neg he]
              by_cases hf : 10 ≤ m1
              · rw [if_pos hf]
                split_ifs <;> omega
              · rw [if_neg hf]
                by_cases hg : 1 ≤ m1
                · rw [if_pos hg]
                  split_ifs <;> omega
                · rw [if_neg hg]
                  split_ifs <;> omega

/-- C5 (amended).  For every text, keyword list, stopword set and
max-hits bound, and every non-negative points-per-hit, the flat
relevance score is `min(max_hits, unique_hit_count) × points_per_hit`,
and capping it at the configured relevance maximum commutes with that
equality. -/
theorem relevance_flat_points (text : String) (keywords stopwords : List String)
    (mh pph relmax : Int) (hp : 0 ≤ pph) :
    (relevance_points text keywords stopwords mh pph).1
      = min mh ((uniqueHitCount text keywords stopwords : Nat) : Int) * pph
    ∧ min relmax (relevance_points text keywords stopwords mh pph).1
      = min relmax (min mh ((uniqueHitCount text keywords stopwords : Nat) : Int) * pph) := by
  have hmain : (relevance_points text keywords stopwords mh pph).1
      = min mh ((uniqueHitCount text keywords stopwords : Nat) : Int) * pph := by
    unfold relevance_points uniqueHitCount pySlice
    dsimp only
    by_cases hmh : 0 ≤ mh
    · rw [if_pos hmh, List.length_take, List.length_insertionSort]
      have hc1 : ((min mh.toNat (relevanceHits text keywords stopwords).dedup.length : Nat) : Int)
          = min mh (((relevanceHits text keywords stopwords).dedup.length : Nat) : Int) := by
        push_cast
        rw [Int.toNat_of_nonneg hmh]
      rw [hc1]
      apply min_eq_right
      exact mul_le_mul_of_nonneg_right (min_le_left _ _) hp
    · rw [if_neg hmh, List.length_take, List.length_insertionSort]
      have hmin : min mh (((relevanceHits text keywords stopwords).dedup.length : Nat) : Int)
          = mh := min_eq_left (le_trans (by omega) (Int.natCast_nonneg _))
      rw [hmin]
      apply min_eq_left
      calc mh * pph ≤ 0 := mul_nonpos_iff.mpr (Or.inr ⟨by omega, hp⟩)
        _ ≤ _ := mul_nonneg (Int.natCast_nonneg _) hp
  exact ⟨hmain, by rw [hmain]⟩

/-- C5, counterexample to the unamended claim: with a negative
points-per-hit (−3), two unique hits and max_hits 5, the code computes
`min(5·(−3), 2·(−3)) = −15` where the claimed formula gives
`min(5,2)·(−3) = −6`. -/
theorem relevance_flat_points_counterexample :
    ¬ (min 60 ((relevance_points "aa bb" [ "aa", "bb"] [] 5 (-3)).1)
        = min 60 (min 5 ((uniqueHitCount "aa bb" [ "aa", "bb"] [] : Nat) : Int) * (-3))) := by
  decide

/-- C5, witness. -/
theorem relevance_flat_points_witness :
    (0 : Int) ≤ 6
    ∧ ((relevance_points "we use wearable sensors" [ "wearable", "multimodal"] [] 10 6).1
        = min 10 ((uniqueHitCount "we use wearable sensors" [ "wearable", "multimodal"] [] : Nat) : Int) * 6
      ∧ min 60 (relevance_points "we use wearable sensors" [ "wearable", "multimodal"] [] 10 6).1
        = min 60 (min 10 ((uniqueHitCount "we use wearable sensors" [ "wearable", "multimodal"] [] : Nat) : Int) * 6)) :=
  ⟨by decide,
   relevance_flat_points "we use wearable sensors" [ "wearable", "multimodal"] [] 10 6 60 (by decide)⟩

/-- C6 (amended).  The relevance score depends only on which keywords
match (each keyword is counted at most once): any two texts giving
every keyword the same matched-status receive the same score, in both
the offline variant and the `scoring.py` variant.  Repeating an
already-matched phrase can therefore only change the score by making a
different keyword newly match. -/
theorem relevance_depends_on_matched_set :
    (∀ (t1 t2 : String) (keywords stopwords : List String) (mh pph : Int),
        (∀ kw ∈ keywords, offlineMatched kw t1 = offlineMatched kw t2) →
        relevance_points t1 keywords stopwords mh pph
          = relevance_points t2 keywords stopwords mh pph)
    ∧ (∀ (t1 t2 : String) (kws : List (String × Int)), kws ≠ [] →
        (∀ kw ∈ kws, Scoring.scoringMatched kw.1 t1 = Scoring.scoringMatched kw.1 t2) →
        Scoring.score_text t1 (some kws) = Scoring.score_text t2 (some kws)) := by
  constructor
  · intro t1 t2 keywords stopwords mh pph hmatch
    unfold relevance_points
    have hh : relevanceHits t1 keywords stopwords = relevanceHits t2 keywords stopwords := by
      unfold relevanceHits
      apply List.filterMap_congr
      intro kw hkw
      dsimp only
      rw [hmatch kw hkw]
    rw [hh]
  · intro t1 t2 kws hne hmatch
    cases kws with
    | nil => exact absurd rfl hne
    | cons p ps =>
      unfold Scoring.score_text
      have hfil : (p :: ps).filter (fun kw => Scoring.scoringMatched kw.1 t1)
          = (p :: ps).filter (fun kw => Scoring.scoringMatched kw.1 t2) :=
        List.filter_congr (fun a ha => by rw [hmatch a ha])
      simp only [List.isEmpty_cons, Bool.false_eq_true, if_false]
      rw [hfil]

/-- C6, counterexample to the unamended claim: in the text `"a b"` the
keyword `"a b"` is matched; repeating that matched phrase (text
`"a b a b"`) changes the relevance score from 6 to 12, because the
other keyword `"b a"` newly matches across the junction. -/
theorem relevance_depends_on_matched_set_counterexample :
    (relevance_points ("a b" ++ " " ++ "a b") [ "a b", "b a"] [] 10 6).1
      ≠ (relevance_points "a b" [ "a b", "b a"] [] 10 6).1 := by
  decide

/-- C6, witness: duplicating the matched keyword `"wearable"` keeps
every keyword's matched-status, and both scorers return unchanged
results. -/
theorem relevance_depends_on_matched_set_witness :
    (∀ kw ∈ defaultConfig.topic_keywords,
        offlineMatched kw "wearable" = offlineMatched kw "wearable wearable")
    ∧ relevance_points "wearable" defaultConfig.topic_keywords
        (defaultConfig.stopwords.map normStr) 10 6
      = relevance_points "wearable wearable" defaultConfig.topic_keywords
        (defaultConfig.stopwords.map normStr) 10 6
    ∧ Scoring.DEFAULT_KEYWORDS ≠ []
    ∧ (∀ kw ∈ Scoring.DEFAULT_KEYWORDS,
        Scoring.scoringMatched kw.1 "wearable" = Scoring.scoringMatched kw.1 "wearable wearable")
    ∧ Scoring.score_text "wearable" (some Scoring.DEFAULT_KEYWORDS)
      = Scoring.score_text "wearable wearable" (some Scoring.DEFAULT_KEYWORDS) :=
  ⟨by decide,
   relevance_depends_on_matched_set.1 "wearable" "wearable wearable"
     defaultConfig.topic_keywords (defaultConfig.stopwords.map normStr) 10 6 (by decide),
   by decide,
   by decide,
   relevance_depends_on_matched_set.2 "wearable" "wearable wearable"
     Scoring.DEFAULT_KEYWORDS (by decide) (by decide)⟩

/-- C1 (amended).  For every paper record and every configuration with
non-negative maxima, non-negative points-per-hit and non-negative
max-unique-hits, the total is an integer in [0, 100] and each sub-score
lies in [0, its configured maximum]. -/
theorem score_paper_bounds (p : Paper) (cfg : Config) (ty : Int)
    (hr : 0 ≤ cfg.relevance_max) (hi : 0 ≤ cfg.impact_max) (hc : 0 ≤ cfg.recency_max)
    (hp : 0 ≤ cfg.points_per_hit) (hm : 0 ≤ cfg.max_unique_hits) :
    (0 ≤ (score_paper p cfg ty).score ∧ (score_paper p cfg ty).score ≤ 100)
    ∧ (0 ≤ (score_paper p cfg ty).relevance
        ∧ (score_paper p cfg ty).relevance ≤ cfg.relevance_max)
    ∧ (0 ≤ (score_paper p cfg ty).impact
        ∧ (score_paper p cfg ty).impact ≤ cfg.impact_max)
    ∧ (0 ≤ (score_paper p cfg ty).recency
        ∧ (score_paper p cfg ty).recency ≤ cfg.recency_max) := by
  have h1 : 0 ≤ (relevance_points
      (p.title.getD "" ++ "\n" ++ p.abstract.getD "" ++ "\n" ++ p.venue.getD "")
      cfg.topic_keywords (cfg.stopwords.map normStr)
      cfg.max_unique_hits cfg.points_per_hit).1 :=
    relevance_points_fst_nonneg hm hp
  have h2 : 0 ≤ impact_points (safe_int p.citationCount) cfg.impact_max :=
    impact_points_nonneg hi
  have h3 : 0 ≤ recency_points (safe_int p.year) cfg.recency_max ty :=
    recency_points_nonneg hc
  unfold score_paper
  dsimp only
  refine ⟨⟨?_, ?_⟩, ⟨?_, ?_⟩, ⟨?_, ?_⟩, ⟨?_, ?_⟩⟩ <;> omega

/-- C1, counterexample to the unamended claim: a configuration whose
maxima are all non-negative but whose points-per-hit is −6 makes
`score_paper` return a total of −60, outside [0, 100] (the relevance
sub-score −60 also leaves [0, 60]). -/
theorem score_paper_bounds_counterexample :
    ¬ (0 ≤ (score_paper { title := some "wearable" }
          { relevance_max := 60, impact_max := 20, recency_max := 20,
            points_per_hit := -6, max_unique_hits := 10,
            stopwords := [], topic_keywords := [ "wearable"] } 2026).score
        ∧ (score_paper { title := some "wearable" }
          { relevance_max := 60, impact_max := 20, recency_max := 20,
            points_per_hit := -6, max_unique_hits := 10,
            stopwords := [], topic_keywords := [ "wearable"] } 2026).score ≤ 100) := by
  decide

/-- C1, witness. -/
theorem score_paper_bounds_witness :
    (0 ≤ defaultConfig.relevance_max ∧ 0 ≤ defaultConfig.impact_max
      ∧ 0 ≤ defaultConfig.recency_max ∧ 0 ≤ defaultConfig.points_per_hit
      ∧ 0 ≤ defaultConfig.max_unique_hits)
    ∧ ((0 ≤ (score_paper {} defaultConfig 2026).score
          ∧ (score_paper {} defaultConfig 2026).score ≤ 100)
        ∧ (0 ≤ (score_paper {} defaultConfig 2026).relevance
            ∧ (score_paper {} defaultConfig 2026).relevance ≤ defaultConfig.relevance_max)
        ∧ (0 ≤ (score_paper {} defaultConfig 2026).impact
            ∧ (score_paper {} defaultConfig 2026).impact ≤ defaultConfig.impact_max)
        ∧ (0 ≤ (score_paper {} defaultConfig 2026).recency
            ∧ (score_paper {} defaultConfig 2026).recency ≤ defaultConfig.recency_max)) :=
  ⟨⟨by decide, by decide, by decide, by decide, by decide⟩,
   score_paper_bounds {} defaultConfig 2026
     (by decide) (by decide) (by decide) (by decide) (by decide)⟩

/-- C2 (amended).  The offline scorer never reads the wall clock: the
reference year is an explicit argument, so two runs at different
wall-clock years return identical results for the same paper,
configuration and reference year. -/
theorem offline_scoring_clock_independent :
    ∀ (w1 w2 : Int) (p : Paper) (cfg : Config) (ty : Int),
      score_paper_run w1 p cfg ty = score_paper_run w2 p cfg ty := by
  intro w1 w2 p cfg ty
  rfl

/-- C2, counterexample to the unamended claim: the `scoring.py` variant
reads `date.today().year` inside `_recency_points`, so scoring the same
paper with the same keyword configuration at wall-clock years 2026 and
2040 returns different results (total 20 versus 0). -/
theorem scoring_wall_clock_dependence :
    Scoring.score_paper { year := JVal.jint 2026 } none 2026
      ≠ Scoring.score_paper { year := JVal.jint 2026 } none 2040 := by
  decide

/-- C8.  A parsed corpus value that is neither a list nor a mapping
containing the key `data` makes `load_papers` raise the validation
`ValueError` instead of returning a result. -/
theorem load_papers_rejects_non_list (j : JVal)
    (h1 : isArrB j = false) (h2 : objHasDataB j = false) :
    load_papers j = Except.error loadPapersError := by
  cases j with
  | jnull => rfl
  | jbool b => rfl
  | jint n => rfl
  | jstr s => rfl
  | jarr l => simp [isArrB] at h1
  | jobj fields =>
    unfold objHasDataB at h2
    dsimp only at h2
    unfold load_papers
    dsimp only
    cases hl : fields.lookup "data" with
    | none => rfl
    | some v =>
      rw [hl] at h2
      simp at h2

/-- C8, witness: a bare object without a `data` key. -/
theorem load_papers_rejects_non_list_witness :
    isArrB (JVal.jobj [( "foo", JVal.jint 1)]) = false
    ∧ objHasDataB (JVal.jobj [( "foo", JVal.jint 1)]) = false
    ∧ load_papers (JVal.jobj [( "foo", JVal.jint 1)]) = Except.error loadPapersError :=
  ⟨rfl, rfl, load_papers_rejects_non_list _ rfl rfl⟩

/-- C10.  A corpus that parses to a list — directly or under the `data`
key — never fails: `load_papers` returns exactly the `dict` elements,
in their original order, silently dropping everything else. -/
theorem load_papers_keeps_dict_elements :
    (∀ elems : List JVal, load_papers (JVal.jarr elems) = Except.ok (elems.filter isObjB))
    ∧ (∀ (fields : List (String × JVal)) (elems : List JVal),
        fields.lookup "data" = some (JVal.jarr elems) →
        load_papers (JVal.jobj fields) = Except.ok (elems.filter isObjB)) := by
  constructor
  · intro elems
    rfl
  · intro fields elems h
    unfold load_papers
    dsimp only
    rw [h]

/-- C10, witness: a `data`-wrapped list holding one `dict` and one
non-`dict` element evaluates to just the `dict` element. -/
theorem load_papers_keeps_dict_elements_witness :
    ([( "data", JVal.jarr [JVal.jobj [], JVal.jint 3])].lookup "data"
        = some (JVal.jarr [JVal.jobj [], JVal.jint 3]))
    ∧ load_papers (JVal.jobj [( "data", JVal.jarr [JVal.jobj [], JVal.jint 3])])
        = Except.ok ([JVal.jobj [], JVal.jint 3].filter isObjB)
    ∧ [JVal.jobj [], JVal.jint 3].filter isObjB = [JVal.jobj []] :=
  ⟨rfl, load_papers_keeps_dict_elements.2 _ _ rfl, rfl⟩

theorem rowIntKeyB_iff {r : Row} : rowIntKeyB r = true ↔ ∃ n, yearKey r = JVal.jint n := by
  unfold rowIntKeyB
  cases yearKey r <;> simp

theorem mkRow_int_key (cfg : Config) (ty : Int) (p : Paper)
    (hp : wellTypedYearB p = true) : rowIntKeyB (mkRow cfg ty p) = true := by
  rw [rowIntKeyB_iff]
  unfold wellTypedYearB at hp
  unfold yearKey mkRow pyOrJ
  dsimp only
  revert hp
  cases p.year with
  | jnull => intro _; exact ⟨0, rfl⟩
  | jint n =>
    intro _
    by_cases hn : n = 0
    · subst hn
      exact ⟨0, rfl⟩
    · have ht : pyTruthy (JVal.jint n) = true := by simp [pyTruthy, hn]
      rw [ht]
      simp [pyTruthy, hn]
  | jbool b => intro hp; simp at hp
  | jstr s => intro hp; simp at hp
  | jarr l => intro hp; simp at hp
  | jobj l => intro hp; simp at hp

theorem keysComparableB_int {a b : JVal} (ha : keyKind a = 0) (hb : keyKind b = 0) :
    keysComparableB a b = true := by
  unfold keysComparableB
  rw [ha, hb]
  rfl

theorem keyKind_of_int {a : JVal} (h : ∃ n, a = JVal.jint n) : keyKind a = 0 := by
  obtain ⟨n, rfl⟩ := h
  rfl

theorem allComparableB_of_int {rows : List Row}
    (h : ∀ r ∈ rows, rowIntKeyB r = true) : allComparableB rows = true := by
  induction rows with
  | nil => rfl
  | cons r rest ih =>
    unfold allComparableB
    rw [Bool.and_eq_true]
    constructor
    · rw [List.all_eq_true]
      intro x hx
      unfold rowComparableB
      rw [Bool.or_eq_true]
      right
      exact keysComparableB_int
        (keyKind_of_int (rowIntKeyB_iff.mp (h r (List.mem_cons_self r rest))))
        (keyKind_of_int (rowIntKeyB_iff.mp (h x (List.mem_cons_of_mem r hx))))
    · exact ih (fun x hx => h x (List.mem_cons_of_mem r hx))

theorem descLe_implies_specDesc {r1 r2 : Row} (h1 : rowIntKeyB r1 = true)
    (h2 : rowIntKeyB r2 = true) (h : descLe r1 r2) : specDesc r1 r2 := by
  obtain ⟨n1, hk1⟩ := rowIntKeyB_iff.mp h1
  obtain ⟨n2, hk2⟩ := rowIntKeyB_iff.mp h2
  unfold descLe keyLe at h
  unfold specDesc yearKeyInt
  rw [hk1, hk2] at h ⊢
  simp only [keyKind, keyNum, keyStr] at h
  dsimp only
  rcases h with h | ⟨he, hk⟩
  · exact Or.inl h
  · refine Or.inr ⟨he, ?_⟩
    rcases hk with hlt | ⟨_, hnum | ⟨hne, _⟩⟩
    · omega
    · omega
    · omega

/-- C7.  For every sequence of paper records (year integer or absent,
as in the spec data model), the pipeline emits the scored rows sorted
descending by (score, year): non-increasing score, larger year first on
score ties, missing year read as 0 — and the emitted rows are a
permutation of the scored input rows. -/
theorem pipeline_sorted_descending (papers : List Paper) (cfg : Config) (ty : Int)
    (h : papers.all wellTypedYearB = true) :
    ∃ out, analyze_rows papers cfg ty = some out
      ∧ List.Pairwise specDesc out
      ∧ out.Perm (papers.map (mkRow cfg ty)) := by
  have hint : ∀ r ∈ papers.map (mkRow cfg ty), rowIntKeyB r = true := by
    intro r hr
    rw [List.mem_map] at hr
    obtain ⟨p, hp, rfl⟩ := hr
    rw [List.all_eq_true] at h
    exact mkRow_int_key cfg ty p (h p hp)
  have hcomp : allComparableB (papers.map (mkRow cfg ty)) = true :=
    allComparableB_of_int hint
  refine ⟨List.insertionSort descLe (papers.map (mkRow cfg ty)), ?_, ?_, ?_⟩
  · unfold analyze_rows
    dsimp only
    rw [if_pos hcomp]
  · have hsorted : List.Sorted descLe
        (List.insertionSort descLe (papers.map (mkRow cfg ty))) :=
      List.sorted_insertionSort descLe _
    refine List.Pairwise.imp_of_mem ?_ hsorted
    intro a b ha hb hab
    have ha' : rowIntKeyB a = true :=
      hint a ((List.perm_insertionSort descLe _).subset ha)
    have hb' : rowIntKeyB b = true :=
      hint b ((List.perm_insertionSort descLe _).subset hb)
    exact descLe_implies_specDesc ha' hb' hab
  · exact List.perm_insertionSort descLe _

/-- C7, witness: a three-paper corpus with an absent year and two
distinct years. -/
theorem pipeline_sorted_descending_witness :
    ([ { title := some "wearable", year := JVal.jint 2024 },
       { year := JVal.jnull },
       { year := JVal.jint 2020 } ] : List Paper).all wellTypedYearB = true
    ∧ ∃ out, analyze_rows
        [ { title := some "wearable", year := JVal.jint 2024 },
          { year := JVal.jnull },
          { year := JVal.jint 2020 } ] defaultConfig 2026 = some out
      ∧ List.Pairwise specDesc out
      ∧ out.Perm ([ { title := some "wearable", year := JVal.jint 2024 },
          { year := JVal.jnull },
          { year := JVal.jint 2020 } ].map (mkRow defaultConfig 2026)) :=
  ⟨by decide,
   pipeline_sorted_descending
     [ { title := some "wearable", year := JVal.jint 2024 },
       { year := JVal.jnull },
       { year := JVal.jint 2020 } ] defaultConfig 2026 (by decide)⟩

/-- C9.  Scoring coerces malformed `year`/`citationCount` values to
absent and still produces a `PaperScore`, but the analyze pipeline is
not failure-free: the raw malformed year is reused as a sort key, so a
corpus holding a string-year record and an int-year record with tied
scores makes the sort comparison undefined (Python raises `TypeError`),
modelled here by `analyze_rows` returning `none`. -/
theorem malformed_year_scores_but_pipeline_fails :
    score_paper { year := JVal.jstr "oops" } defaultConfig 2026
      = { score := 0, relevance := 0, impact := 0, recency := 0, reason := "" }
    ∧ score_paper { year := JVal.jint 2000 } defaultConfig 2026
      = { score := 0, relevance := 0, impact := 0, recency := 0, reason := "year=2000" }
    ∧ analyze_rows [ { year := JVal.jstr "oops" }, { year := JVal.jint 2000 } ]
        defaultConfig 2026 = none :=
  ⟨by decide, by decide, rfl⟩

/-- C3, witness: year 2019 at reference year 2026 (age 7) hits the
decay formula and evaluates to 6. -/
theorem recency_linear_decay_witness :
    ((0 : Int) < 2019 ∧ (2026 : Int) - 2019 < 10)
    ∧ recency_points (some 2019) 20 2026
        = roundHalfEvenQ ((20 : ℚ) * (1 - ((max 0 ((2026 : Int) - 2019) : Int) : ℚ) / 10))
    ∧ recency_points (some 2019) 20 2026 = 6 :=
  ⟨⟨by decide, by decide⟩,
   recency_linear_decay.2.2.2.1 2019 2026 (by decide) (by decide),
   by decide⟩

/-- C4, witness: 120 citations land in the 70-percent tier (14 of 20),
and 17 ≤ 120 citations gives a no-larger impact score. -/
theorem impact_step_function_witness :
    ((100 : Int) ≤ 120 ∧ (120 : Int) < 200)
    ∧ impact_points (some 120) 20 = 14
    ∧ ((0 : Int) ≤ 20 ∧ (17 : Int) ≤ 120)
    ∧ impact_points (some 17) 20 ≤ impact_points (some 120) 20 :=
  ⟨⟨by decide, by decide⟩,
   impact_step_function.2.2.2.2.1 120 (by decide) (by decide),
   ⟨by decide, by decide⟩,
   impact_step_function.2.2.2.2.2.2.2.2.2.2.1 20 17 120 (by decide) (by decide)⟩

end Claims

end ResearchHunter
